import Mathlib

/-!
Verification of the threshold secret-sharing core of the e2e-chat-app
repository against its natural-language specification.

The development shallowly embeds three parts of the source:

* `Shamir` — `src/services/cryptography/ProductionShamirService.js`.
  JavaScript `BigInt` arithmetic is embedded as `Int` with truncated
  division and remainder (`Int.tdiv` / `Int.tmod`), which is exactly the
  semantics of `/` and `%` on JS `BigInt` values (both round toward zero
  and the remainder carries the sign of the dividend).  Hex strings are
  modelled by their byte lists, and the decimal share strings by the
  integers they denote.
* `ShareCrypto` — the share encryption/decryption plumbing of
  `ProductionShamirService.js` together with `EccService.js`.
* `Registry` — the Solidity contracts `SecureShareContract` and
  `SecureShareRegistry`.  Contract storage is embedded as a record of
  total maps, a reverting call is an `Except.error`, and a reverted
  transaction discards every intermediate write (the caller keeps the
  pre-call state), matching EVM transaction semantics.  `keccak256`
  hashes that are stored but never inspected by any claim are modelled
  by a concatenation of their arguments.

Helper facts about truncated remainders come first because the
termination argument of the embedded extended-Euclid loop needs them;
all remaining theorems follow the definitions.
-/

/-- Magnitude of a truncated remainder: `Int.tmod` keeps the sign of the
dividend, and its absolute value is the `Nat` remainder of the absolute
values. -/
theorem natAbs_tmod (a b : Int) : (a.tmod b).natAbs = a.natAbs % b.natAbs := by
  cases a <;> cases b <;> simp only [Int.tmod, Int.natAbs_neg, Int.natAbs_ofNat] <;> rfl

/-- Truncated remainder by a nonzero divisor strictly shrinks in magnitude. -/
theorem natAbs_tmod_lt (a b : Int) (h : b ≠ 0) : (a.tmod b).natAbs < b.natAbs := by
  rw [natAbs_tmod]
  exact Nat.mod_lt _ (Int.natAbs_pos.mpr h)

/-- Expressing the Euclidean-step update `a - (a / b) * b` of the source
(with JS truncated `BigInt` division) as a truncated remainder. -/
theorem sub_tdiv_mul_eq_tmod (a b : Int) : a - a.tdiv b * b = a.tmod b := by
  have h := Int.tmod_add_tdiv a b
  linarith [h]

namespace Shamir

/-- Embeds `getPrime` of `ProductionShamirService`: the fixed 256-bit
prime modulus used for all field arithmetic. -/
def P : Int := 115792089210356248762697446949407573529996955224135760342422259061068512044369

/-- A share `{x, y}` as produced by `generateShares` and consumed by
`reconstructSecret`.  In the source `x` is a JS number and `y` the
decimal string of a `BigInt`; both are embedded as the integers they
denote. -/
structure Share where
  x : Int
  y : Int
deriving DecidableEq

/-- Embeds `evaluatePolynomial`: iterates `result = (result + coeff*power) % prime;
power = (power * x) % prime` over the coefficient list. -/
def evaluatePolynomial (coefficients : List Int) (x prime : Int) : Int :=
  (coefficients.foldl
    (fun rp coeff => ((rp.1 + coeff * rp.2).tmod prime, (rp.2 * x).tmod prime))
    ((0 : Int), (1 : Int))).1

/-- Embeds `bytesToFieldElement`: big-endian byte accumulation modulo the
prime. -/
def bytesToFieldElement (bytes : List Nat) (prime : Int) : Int :=
  bytes.foldl (fun result b => (result * 256 + Int.ofNat b).tmod prime) 0

/-- Embeds `_validateInputs`.  The source checks
`privateKeyHex.length < 64` on the hex string; on the byte-list model
this is `length < 32`. -/
def validateInputs (privateKeyBytes : List Nat) (numShares threshold : Nat) :
    Except String Unit :=
  if privateKeyBytes.length < 32 then
    .error "Invalid private key format"
  else if numShares < 2 || numShares > 100 then
    .error "Number of shares must be between 2 and 100"
  else if threshold < 2 || threshold > numShares then
    .error ("Threshold must be between 2 and " ++ toString numShares)
  else
    .ok ()

/-- Embeds `generateShares`.  The source draws `threshold - 1` random
field elements from a CSPRNG (`_secureRandomFieldElement`); the embedding
takes that random draw as the explicit argument `randomCoefficients`, so
the function is the deterministic continuation of the sampling.  The
entropy mixing (`_generateExtraEntropy`) only influences which random
elements are drawn and is absorbed into the same argument.  On success
the source also zeroes its transient buffers (`_wipeMemory`), which has
no observable effect on the returned value. -/
def generateShares (privateKeyBytes : List Nat) (numShares threshold : Nat)
    (randomCoefficients : List Int) : Except String (List Share) :=
  match validateInputs privateKeyBytes numShares threshold with
  | .error e => .error ("Share generation failed: " ++ e)
  | .ok _ =>
    let secret := bytesToFieldElement privateKeyBytes P
    let coefficients := secret :: randomCoefficients.take (threshold - 1)
    .ok ((List.range numShares).map (fun k =>
      let x : Int := Int.ofNat (k + 1)
      { x := x, y := evaluatePolynomial coefficients x P }))

/-- Embeds the `while (r !== 0n)` loop of `modInverse` (extended Euclid
with truncated `BigInt` division), carrying the Bezout coefficients
`old_s, s, old_t, t` exactly as the source does and returning
`(old_r, old_s, old_t)` on exit. -/
def egcdLoop (oldR r oldS s oldT t : Int) : Int × Int × Int :=
  if h : r = 0 then (oldR, oldS, oldT)
  else
    let quotient := oldR.tdiv r
    egcdLoop r (oldR - quotient * r) s (oldS - quotient * s) t (oldT - quotient * t)
termination_by r.natAbs
decreasing_by
  simp only [sub_tdiv_mul_eq_tmod]
  exact natAbs_tmod_lt _ _ h

/-- Fuel-indexed mirror of `egcdLoop`, used only so that concrete runs of
the loop can be evaluated by kernel reduction; `egcdFuel_eq_egcdLoop`
shows it computes the same function whenever the fuel bounds the loop
measure. -/
def egcdFuel (fuel : Nat) (oldR r oldS s oldT t : Int) : Int × Int × Int :=
  match fuel with
  | 0 => (oldR, oldS, oldT)
  | fuel' + 1 =>
    if r = 0 then (oldR, oldS, oldT)
    else
      let quotient := oldR.tdiv r
      egcdFuel fuel' r (oldR - quotient * r) s (oldS - quotient * s) t (oldT - quotient * t)

/-- Embeds `modInverse`: runs the extended-Euclid loop and returns
`((old_s % m) + m) % m` with JS truncated `%`. -/
def modInverse (a m : Int) : Int :=
  let res := egcdLoop a m 1 0 0 1
  ((res.2.1.tmod m) + m).tmod m

/-- Computable mirror of `modInverse` via `egcdFuel`. -/
def modInverseC (a m : Int) : Int :=
  let res := egcdFuel (m.natAbs + 1) a m 1 0 0 1
  ((res.2.1.tmod m) + m).tmod m

/-- Body of `_constantTimeLagrangeInterpolation`, parameterised by the
modular-inverse routine so that the statement-level definition (using
`modInverse`) and the kernel-computable mirror (using `modInverseC`)
share one transcription of the two nested loops, including the
`shouldUpdate` masking of the `i = j` iterations and the final
`(result + prime) % prime` normalisation. -/
def lagrangeWith (inv : Int → Int → Int) (shares : List Share) (x prime : Int) : Int :=
  let n := shares.length
  let result := (List.range n).foldl (fun result i =>
    let nd := (List.range n).foldl (fun (nd : Int × Int) j =>
      let xi := (shares.getD i ⟨0, 0⟩).x
      let xj := (shares.getD j ⟨0, 0⟩).x
      let term1 := (x - xj).tmod prime
      let term2 := (xi - xj).tmod prime
      let shouldUpdate : Int := if i ≠ j then 1 else 0
      ((nd.1 * (term1 * shouldUpdate + 1 * (1 - shouldUpdate))).tmod prime,
       (nd.2 * (term2 * shouldUpdate + 1 * (1 - shouldUpdate))).tmod prime)) (1, 1)
    let inverseDenominator := inv nd.2 prime
    let basis := (nd.1 * inverseDenominator).tmod prime
    let yi := (shares.getD i ⟨0, 0⟩).y
    (result + (yi * basis).tmod prime).tmod prime) 0
  (result + prime).tmod prime

/-- Embeds `_constantTimeLagrangeInterpolation` (with the source's
`modInverse`). -/
def constantTimeLagrangeInterpolation (shares : List Share) (x prime : Int) : Int :=
  lagrangeWith modInverse shares x prime

/-- Embeds `_validateShares`.  `!share.x` is falsy exactly for `x = 0`,
and `share.y.match(/^\d+$/)` succeeds exactly when the y string is a
nonnegative decimal numeral, i.e. `0 ≤ y` on the value model.  The
duplicate check compares the cardinality of the set of x values with the
list length, embedded via `List.dedup`. -/
def validateShares (shares : List Share) : Except String Unit :=
  if shares.length < 2 then
    .error "At least 2 valid shares are required"
  else if (shares.map Share.x).dedup.length ≠ shares.length then
    .error "Duplicate share indices detected"
  else if shares.any (fun s => s.x == 0 || decide (s.y < 0)) then
    .error "Invalid share format"
  else
    .ok ()

/-- Embeds `reconstructSecret` up to the final hex rendering: the source
returns `fieldElementToHex(secret)`, an injective encoding of the field
element, so the embedding returns the field element itself.  The
`catch` block wraps any validation failure into
`Secret reconstruction failed: ...`. -/
def reconstructSecret (shares : List Share) : Except String Int :=
  match validateShares shares with
  | .error e => .error ("Secret reconstruction failed: " ++ e)
  | .ok _ => .ok (constantTimeLagrangeInterpolation shares 0 P)

/-- Kernel-computable mirror of `reconstructSecret`. -/
def reconstructSecretC (shares : List Share) : Except String Int :=
  match validateShares shares with
  | .error e => .error ("Secret reconstruction failed: " ++ e)
  | .ok _ => .ok (lagrangeWith modInverseC shares 0 P)

end Shamir

namespace ShareCrypto

/-- Integrity metadata that `encryptShare` embeds next to the share:
`{timestamp, checksum}`.  The sha256-hex checksum string is modelled by
an abstract value (see `decryptShareStage`). -/
structure ShareMetadata where
  timestamp : Nat
  checksum : Nat
deriving DecidableEq

/-- JSON object shape produced by `encryptShare` and expected back by
`decryptShare` after decryption: the share fields plus an optional
`metadata` field (absent when the parsed JSON has no such key). -/
structure EnrichedShare where
  x : Int
  y : Int
  metadata : Option ShareMetadata
deriving DecidableEq

/-- Wire object `{iv, ephemPublicKey, ciphertext, mac}` of
`EccService.encrypt`; the hex strings are modelled by their byte lists. -/
structure EncryptedPayload where
  iv : List Nat
  ephemPublicKey : List Nat
  ciphertext : List Nat
  mac : List Nat
deriving DecidableEq

/-- Embeds `EccService.parseFromContract`: fixed-offset slicing of the
blob, 16 bytes of IV, 65 bytes of ephemeral key, 16 bytes of MAC taken
from the end, the rest as ciphertext. -/
def parseFromContract (blob : List Nat) : EncryptedPayload :=
  { iv := blob.take 16
    ephemPublicKey := (blob.drop 16).take 65
    ciphertext := (blob.drop 81).take (blob.length - 16 - 81)
    mac := blob.drop (blob.length - 16) }

/-- Embeds `EccService.decrypt`.  In the source the function body reads
`encryptedData.iv`, `.ephemPublicKey`, `.ciphertext` and `.mac` at the
top of its try block, but the same try block later declares
`const encryptedData = concatBytes(ciphertext, mac)`.  Under JS lexical
scoping that block-scoped `const` shadows the `encryptedData` parameter
throughout the whole block, so every one of those early reads happens in
the temporal dead zone and throws a `ReferenceError`; the outer `catch`
rethrows it.  The function therefore denotes the constant error, and the
AES-GCM/ECDH machinery after the faulty line is unreachable.  (The exact
engine-generated message text is immaterial; a stable paraphrase is
used.) -/
def decrypt (privateKeyBytes : List Nat) (encryptedData : EncryptedPayload) :
    Except String EnrichedShare :=
  .error "ReferenceError: cannot access encryptedData before initialization"

/-- Embeds lines 124-137 of `ProductionShamirService.decryptShare`: the
stage that runs after `EccService.decrypt` has produced a plaintext.  It
parses the JSON into the enriched share, splits off `metadata`, and only
when a metadata field is present recomputes `_computeShareChecksum` on
the remaining `{x, y}` and compares it with the stored checksum.  The
sha256-based checksum function is passed as the parameter `hash`. -/
def decryptShareStage (hash : Shamir.Share → Nat) (enrichedShare : EnrichedShare) :
    Except String Shamir.Share :=
  let share : Shamir.Share := ⟨enrichedShare.x, enrichedShare.y⟩
  match enrichedShare.metadata with
  | some metadata =>
    if hash share ≠ metadata.checksum then
      .error "Share integrity verification failed: checksum mismatch"
    else
      .ok share
  | none => .ok share

/-- Embeds `ProductionShamirService.decryptShare`: parse the blob, call
`EccService.decrypt`, then run the integrity stage; the catch block
prefixes any failure with `Share decryption failed: `. -/
def decryptShare (hash : Shamir.Share → Nat) (privateKeyBytes : List Nat)
    (encryptedShareBlob : List Nat) : Except String Shamir.Share :=
  let encryptedData := parseFromContract encryptedShareBlob
  match decrypt privateKeyBytes encryptedData with
  | .error e => .error ("Share decryption failed: " ++ e)
  | .ok enrichedShare =>
    match decryptShareStage hash enrichedShare with
    | .error e => .error ("Share decryption failed: " ++ e)
    | .ok share => .ok share

end ShareCrypto

namespace Registry

/-- Contract addresses are naturals; 0 plays the role of `address(0)`. -/
abbrev Address := Nat

/-- Storage of one `SecureShareContract` (a custodian): the immutable
owner and registry back-reference, the encrypted payload, the `isActive`
flag, and the access bookkeeping. -/
structure Custodian where
  owner : Address
  registry : Address
  encryptedShare : List Nat
  isActive : Bool
  lastAccessed : Nat
  accessCount : Nat
  lastAccessByAddress : Address → Nat

/-- The registry's `ShareConfig` struct. -/
structure ShareConfig where
  totalShares : Nat
  threshold : Nat
  creationTime : Nat
  isActive : Bool
  configHash : List Nat

/-- The registry's `RecoveryRequest` struct. -/
structure RecoveryRequest where
  initiator : Address
  requestTime : Nat
  expiresAt : Nat
  requestHash : List Nat
  isActive : Bool

/-- Combined storage of the `SecureShareRegistry` contract and of every
`SecureShareContract` it has deployed.  Custodian contracts are
addressed by their position in `custodians` (an append-only deployment
list); `userShares` stores those positions. -/
structure State where
  selfAddr : Address
  contractOwner : Address
  paused : Bool
  serviceFee : Nat
  feeCollector : Address
  custodians : List Custodian
  shareConfigs : Address → ShareConfig
  userShares : Address → List Nat
  recoveryAddresses : Address → List Address
  emergencyContacts : Address → Address
  recoveryRequests : Address → RecoveryRequest
  blacklisted : Address → Bool
  feeExemptions : Address → Bool
  lastActionTimestamp : Address → Nat
  failedAttempts : Address → Nat

/-- Point update of a storage mapping. -/
def upd {α : Type} (f : Address → α) (k : Address) (v : α) : Address → α :=
  fun a => if a = k then v else f a

/-- Models `keccak256(abi.encodePacked(...))` for hashes that are stored
for audit but never inspected by any claim: the arguments are kept as a
length-tagged concatenation. -/
def keccakModel (parts : List (List Nat)) : List Nat :=
  parts.foldr (fun p acc => (p.length :: p) ++ acc) []

/-- Embeds `hasShares`: `totalShares > 0 && isActive`. -/
def hasShares (s : State) (user : Address) : Bool :=
  decide (0 < (s.shareConfigs user).totalShares) && (s.shareConfigs user).isActive

/-- Embeds `isRecoveryAddress`: linear scan of the per-user list. -/
def isRecoveryAddress (s : State) (user recoveryAddr : Address) : Bool :=
  (s.recoveryAddresses user).contains recoveryAddr

/-- Embeds `isAuthorizedForShare`: owner, registered recovery address,
emergency contact, or initiator of an active recovery request whose
`expiresAt` has been reached (`block.timestamp >= request.expiresAt`). -/
def isAuthorizedForShare (s : State) (owner accessor : Address) (now : Nat) : Bool :=
  if owner == accessor then true
  else if isRecoveryAddress s owner accessor then true
  else if s.emergencyContacts owner == accessor then true
  else
    let request := s.recoveryRequests owner
    request.isActive && request.initiator == accessor && decide (request.expiresAt ≤ now)

/-- Embeds `_checkBlacklist`. -/
def checkBlacklist (s : State) (account : Address) : Except String Unit :=
  if s.blacklisted account then .error "Address is blacklisted" else .ok ()

/-- Final stage of `_throttleRequests`: the minimum-delay check
(`THROTTLE_DURATION` is 5 minutes).  Timestamps only move forward in
every embedded scenario, so the `uint256` subtraction is `Nat`
truncating subtraction. -/
def throttleFinal (s : State) (account : Address) (now : Nat) : Except String State :=
  if 300 ≤ now - s.lastActionTimestamp account then .ok s
  else .error "Please wait before making another request"

/-- Middle stage of `_throttleRequests`: the failed-attempts lockout
(`MAX_FAILED_ATTEMPTS` is 5, lockout releases after 1 hour and resets the
counter). -/
def throttleCheck (s : State) (account : Address) (now : Nat) : Except String State :=
  if 5 ≤ s.failedAttempts account then
    if 3600 < now - s.lastActionTimestamp account then
      throttleFinal { s with failedAttempts := upd s.failedAttempts account 0 } account now
    else .error "Too many failed attempts, try again later"
  else throttleFinal s account now

/-- Embeds `_throttleRequests`: the contract owner is exempt; after a
1-day cool-down the failed-attempts counter is reset before the
remaining checks run. -/
def throttleRequests (s : State) (account : Address) (now : Nat) : Except String State :=
  if account = s.contractOwner then .ok s
  else if 86400 < now - s.lastActionTimestamp account then
    throttleCheck { s with failedAttempts := upd s.failedAttempts account 0 } account now
  else throttleCheck s account now

/-- Embeds `storeShares`, requires in source order: `whenNotPaused`,
blacklist, throttling, fee (unless exempt), `threshold > 0 &&
threshold <= count`, `count >= 3`, `count <= 100`, no active config,
then per-share nonemptiness plus the `SecureShareContract` constructor
requires (`owner != 0`, `registry != 0`; the nonempty-data constructor
check repeats the loop's own check).  The fee forward to `feeCollector`
is an external transfer modelled as succeeding.  On success one
custodian per share is appended, the custodian ids are pushed onto
`userShares[sender]`, and the new `ShareConfig` with its content hash is
recorded.  (`nonReentrant` has no effect in the sequential model.) -/
def storeShares (s : State) (sender : Address) (now value : Nat)
    (encryptedShareData : List (List Nat)) (threshold : Nat) :
    Except String (State × List Nat) :=
  if s.paused then .error "Pausable: paused"
  else match checkBlacklist s sender with
  | .error e => .error e
  | .ok _ =>
    match throttleRequests s sender now with
    | .error e => .error e
    | .ok s1 =>
      if !s1.feeExemptions sender && decide (value < s1.serviceFee) then
        .error "Insufficient fee"
      else if !(decide (0 < threshold) && decide (threshold ≤ encryptedShareData.length)) then
        .error "Invalid threshold"
      else if encryptedShareData.length < 3 then
        .error "Minimum 3 shares required"
      else if 100 < encryptedShareData.length then
        .error "Maximum 100 shares allowed"
      else if hasShares s1 sender then
        .error "Shares already exist"
      else if encryptedShareData.any List.isEmpty then
        .error "Empty share data"
      else if sender = 0 then
        .error "Invalid owner"
      else if s1.selfAddr = 0 then
        .error "Invalid registry"
      else
        let baseId := s1.custodians.length
        let ids := (List.range encryptedShareData.length).map (fun i => baseId + i)
        let newCustodians := encryptedShareData.map (fun d =>
          ({ owner := sender, registry := s1.selfAddr, encryptedShare := d,
             isActive := true, lastAccessed := 0, accessCount := 0,
             lastAccessByAddress := fun _ => 0 } : Custodian))
        let configHash := keccakModel
          [[sender], [encryptedShareData.length], [threshold], [now], ids]
        let s2 := { s1 with
          custodians := s1.custodians ++ newCustodians,
          userShares := upd s1.userShares sender (s1.userShares sender ++ ids),
          shareConfigs := upd s1.shareConfigs sender
            { totalShares := encryptedShareData.length, threshold := threshold,
              creationTime := now, isActive := true, configHash := configHash },
          lastActionTimestamp := upd s1.lastActionTimestamp sender now }
        .ok (s2, ids)

/-- The `for` loop of `revokeShares`: calls `deactivate()` on every
custodian listed for the caller.  `deactivate` is guarded by
`onlyOwnerOrRegistry`, checked against the caller of the external call,
which is the registry contract itself. -/
def deactivateAll (callerAddr : Address) (custodians : List Custodian) (ids : List Nat) :
    Except String (List Custodian) :=
  match ids with
  | [] => .ok custodians
  | cid :: rest =>
    match custodians[cid]? with
    | none => .error "call to account without code"
    | some c =>
      if callerAddr = c.owner ∨ callerAddr = c.registry then
        deactivateAll callerAddr (custodians.set cid { c with isActive := false }) rest
      else .error "Not authorized"

/-- Embeds `revokeShares`: requires an active config, deactivates every
custodian in `userShares[sender]` (the list itself is left in place),
marks the config inactive and stamps `lastActionTimestamp`. -/
def revokeShares (s : State) (sender : Address) (now : Nat) : Except String State :=
  if !hasShares s sender then .error "No shares found"
  else match deactivateAll s.selfAddr s.custodians (s.userShares sender) with
  | .error e => .error e
  | .ok cs =>
    .ok { s with
      custodians := cs,
      shareConfigs := upd s.shareConfigs sender
        { s.shareConfigs sender with isActive := false },
      lastActionTimestamp := upd s.lastActionTimestamp sender now }

/-- Embeds `SecureShareContract.getShare` as seen by a call whose EVM
sender is `caller`: requires `isActive`, then owner-or-registry-approved
authorization (the `try`/`catch` around the registry view call cannot
fail in the model), then the 5-minute per-caller rate limit for
non-owners, then updates the bookkeeping and returns the payload. -/
def custodianGetShare (s : State) (cid : Nat) (caller : Address) (now : Nat) :
    Except String (State × List Nat) :=
  match s.custodians[cid]? with
  | none => .error "call to account without code"
  | some c =>
    if !c.isActive then .error "Share is inactive"
    else
      let isAuthorized := caller == c.owner || isAuthorizedForShare s c.owner caller now
      if !isAuthorized then .error "Not authorized for this share"
      else if caller != c.owner && decide (now - c.lastAccessByAddress caller < 300) then
        .error "Access too frequent"
      else
        let c2 := { c with
                    lastAccessed := now,
                    lastAccessByAddress := upd c.lastAccessByAddress caller now,
                    accessCount := c.accessCount + 1 }
        .ok ({ s with custodians := s.custodians.set cid c2 }, c.encryptedShare)

/-- Embeds `SecureShareRegistry.getShare`: requires an active config and
`index < totalShares`, throttles non-owner callers, then performs the
external call `SecureShareContract(userShares[user][index]).getShare()`.
Inside that call the EVM message sender is the registry contract's own
address, so the custodian's authorization check runs with
`caller = s.selfAddr`. -/
def registryGetShare (s : State) (user : Address) (index : Nat) (caller : Address)
    (now : Nat) : Except String (State × List Nat) :=
  if !hasShares s user then .error "No shares found"
  else if !decide (index < (s.shareConfigs user).totalShares) then
    .error "Invalid share index"
  else
    match (if caller ≠ user then throttleRequests s caller now else .ok s) with
    | .error e => .error e
    | .ok s1 => custodianGetShare s1 ((s1.userShares user).getD index 0) s1.selfAddr now

/-- Embeds `initiateRecovery`: requires the target to have shares, the
caller to be the emergency contact or a recovery address, no active
request, and throttling; then records the 48-hour (172800 s) time-locked
request. -/
def initiateRecovery (s : State) (sender user : Address) (now : Nat) :
    Except String State :=
  if !hasShares s user then .error "No shares found"
  else if !(sender == s.emergencyContacts user || isRecoveryAddress s user sender) then
    .error "Not authorized for recovery"
  else if (s.recoveryRequests user).isActive then .error "Recovery already initiated"
  else match throttleRequests s sender now with
  | .error e => .error e
  | .ok s1 =>
    let expiresAt := now + 172800
    let requestHash := keccakModel [[user], [sender], [now], [expiresAt]]
    .ok { s1 with
      recoveryRequests := upd s1.recoveryRequests user
        { initiator := sender, requestTime := now, expiresAt := expiresAt,
          requestHash := requestHash, isActive := true },
      lastActionTimestamp := upd s1.lastActionTimestamp sender now }

/-- Embeds `setEmergencyContact`: nonzero contact distinct from the
caller, throttling, contact not blacklisted, then the mapping update. -/
def setEmergencyContact (s : State) (sender contact : Address) (now : Nat) :
    Except String State :=
  if contact = 0 then .error "Invalid address"
  else if contact = sender then .error "Cannot set self as emergency contact"
  else match throttleRequests s sender now with
  | .error e => .error e
  | .ok s1 =>
    match checkBlacklist s1 contact with
    | .error e => .error e
    | .ok _ =>
      .ok { s1 with
        emergencyContacts := upd s1.emergencyContacts sender contact,
        lastActionTimestamp := upd s1.lastActionTimestamp sender now }

/-- Freshly deployed registry (constructor with `initialServiceFee = fee`
and a fee collector); every mapping is at its Solidity default. -/
def initialState (selfAddr deployer feeCollector : Address) (fee : Nat) : State :=
  { selfAddr := selfAddr, contractOwner := deployer, paused := false,
    serviceFee := fee, feeCollector := feeCollector, custodians := [],
    shareConfigs := fun _ => ⟨0, 0, 0, false, []⟩,
    userShares := fun _ => [], recoveryAddresses := fun _ => [],
    emergencyContacts := fun _ => 0,
    recoveryRequests := fun _ => ⟨0, 0, 0, [], false⟩,
    blacklisted := fun _ => false, feeExemptions := fun _ => false,
    lastActionTimestamp := fun _ => 0, failedAttempts := fun _ => 0 }

/-- Scenario base: registry at address 100 deployed by 50 with fee
collector 60 and zero service fee. -/
def s0 : State := initialState 100 50 60 0

/-- Scenario: user 1 stores three shares (threshold 2) at time 1000. -/
def st1 : State :=
  match storeShares s0 1 1000 0 [[7], [7], [7]] 2 with
  | .ok (t, _) => t
  | .error _ => s0

/-- Scenario: user 1 then makes 2 the emergency contact at time 1400. -/
def st2 : State :=
  match setEmergencyContact st1 1 2 1400 with
  | .ok t => t
  | .error _ => st1

/-- Scenario: the emergency contact 2 initiates recovery for 1 at
time 1800 (time lock expires at 174600). -/
def st3 : State :=
  match initiateRecovery st2 2 1 1800 with
  | .ok t => t
  | .error _ => st2

/-- Scenario: starting again from `st1`, user 1 revokes at time 1400. -/
def rv2 : State :=
  match revokeShares st1 1 1400 with
  | .ok t => t
  | .error _ => st1

/-- Scenario: after revoking, user 1 stores a fresh configuration of
three shares at time 1800. -/
def st4 : State :=
  match storeShares rv2 1 1800 0 [[9], [9], [9]] 2 with
  | .ok (t, _) => t
  | .error _ => rv2

/-- Scenario for the C5 counterexample: a store with threshold 1. -/
def c5st : State :=
  match storeShares s0 1 1000 0 [[7], [7], [7]] 1 with
  | .ok (t, _) => t
  | .error _ => s0

/-- Hand-built state for the C2 witness: owner 1 has an active recovery
request initiated by 3 at time 0 expiring at 172800, and 3 holds no
other role. -/
def c2w : State :=
  { s0 with recoveryRequests := upd s0.recoveryRequests 1 ⟨3, 0, 172800, [], true⟩ }

end Registry

/-! Bridge lemmas between the faithful definitions and their
kernel-computable mirrors, and structural facts about the registry
operations used by several claims. -/

theorem Shamir.egcdFuel_eq_egcdLoop (fuel : Nat) :
    ∀ oldR r oldS s oldT t : Int, r.natAbs < fuel →
      Shamir.egcdFuel fuel oldR r oldS s oldT t = Shamir.egcdLoop oldR r oldS s oldT t := by
  induction fuel with
  | zero => intro _ _ _ _ _ _ h; omega
  | succ n ih =>
    intro oldR r oldS s oldT t h
    rw [Shamir.egcdLoop]
    by_cases hr : r = 0
    · simp [Shamir.egcdFuel, hr]
    · simp only [Shamir.egcdFuel, if_neg hr, dif_neg hr]
      apply ih
      have hlt := natAbs_tmod_lt oldR r hr
      rw [← sub_tdiv_mul_eq_tmod] at hlt
      omega

theorem Shamir.modInverse_eq_modInverseC (a m : Int) :
    Shamir.modInverse a m = Shamir.modInverseC a m := by
  unfold Shamir.modInverse Shamir.modInverseC
  rw [Shamir.egcdFuel_eq_egcdLoop]
  omega

theorem Shamir.lagrange_eq_C (shares : List Shamir.Share) (x prime : Int) :
    Shamir.constantTimeLagrangeInterpolation shares x prime =
      Shamir.lagrangeWith Shamir.modInverseC shares x prime := by
  unfold Shamir.constantTimeLagrangeInterpolation Shamir.lagrangeWith
  simp only [Shamir.modInverse_eq_modInverseC]

theorem Shamir.reconstructSecret_eq_C (shares : List Shamir.Share) :
    Shamir.reconstructSecret shares = Shamir.reconstructSecretC shares := by
  unfold Shamir.reconstructSecret Shamir.reconstructSecretC
  simp only [Shamir.lagrange_eq_C]

/-- C1: splitting then reconstructing is claimed to return the original
secret for every N in [2,100], T in [2,N] and every T-subset.  The code
violates this: with secret 1 (key bytes 00..01), N = T = 2 and random
coefficient 1, `generateShares` produces the shares (1,2), (2,3) of the
polynomial 1 + x, but `reconstructSecret` on exactly these two shares
returns P - 7 instead of 1.  The root cause is `modInverse` on negative
inputs: JS `BigInt` division truncates toward zero, so for the
denominator -1 the extended-Euclid loop exits with remainder -1 and
Bezout coefficient 1, and `modInverse(-1, P) = 1` even though the inverse
of -1 is P - 1; the Lagrange basis for the first share is therefore
negated and the sum is wrong. -/
theorem C1_split_reconstruct_roundtrip_fails :
    Shamir.generateShares (List.replicate 31 0 ++ [1]) 2 2 [1] =
      .ok [⟨1, 2⟩, ⟨2, 3⟩] ∧
    Shamir.reconstructSecret [⟨1, 2⟩, ⟨2, 3⟩] = .ok (Shamir.P - 7) ∧
    Shamir.P - 7 ≠ 1 ∧
    Shamir.modInverse (-1) Shamir.P = 1 ∧
    ((-1 : Int) * (Shamir.P - 1)) % Shamir.P = 1 % Shamir.P := by
  refine ⟨by rfl, ?_, by decide, ?_, by decide⟩
  · rw [Shamir.reconstructSecret_eq_C]; rfl
  · rw [Shamir.modInverse_eq_modInverseC]; rfl

/-- C4 counterexample: the claim says reconstruction from T - 1 distinct
shares fails with a validation error, but `_validateShares` only checks
`shares.length < 2` and never consults the threshold.  With T = 3 (secret
1, polynomial 1 + x + x^2, shares (1,3), (2,7), (3,13)), supplying the
T - 1 = 2 distinct shares (1,3), (2,7) passes validation and returns a
value (P - 13) instead of failing. -/
theorem C4_two_of_three_shares_accepted :
    Shamir.generateShares (List.replicate 31 0 ++ [1]) 3 3 [1, 1] =
      .ok [⟨1, 3⟩, ⟨2, 7⟩, ⟨3, 13⟩] ∧
    Shamir.reconstructSecret [⟨1, 3⟩, ⟨2, 7⟩] = .ok (Shamir.P - 13) := by
  refine ⟨by rfl, ?_⟩
  rw [Shamir.reconstructSecret_eq_C]
  rfl

/-- C4 amended: `reconstructSecret` fails with a validation error exactly
when fewer than 2 shares are supplied; the threshold of the originating
configuration is not available to it, so T - 1 distinct well-formed
shares with T - 1 at least 2 are accepted and produce a value. -/
theorem C4_fewer_than_two_shares_rejected (shares : List Shamir.Share)
    (h : shares.length < 2) :
    Shamir.reconstructSecret shares =
      .error "Secret reconstruction failed: At least 2 valid shares are required" := by
  unfold Shamir.reconstructSecret Shamir.validateShares
  rw [if_pos h]
  rfl

/-- Witness for C4: the empty share list is rejected. -/
theorem C4_fewer_than_two_shares_rejected_witness :
    Shamir.reconstructSecret [] =
      .error "Secret reconstruction failed: At least 2 valid shares are required" :=
  C4_fewer_than_two_shares_rejected [] (by decide)

/-- C8: whenever two supplied shares carry the same x-coordinate (the
x-list is not nodup), `reconstructSecret` fails with the duplicate-index
validation error before any interpolation. -/
theorem C8_duplicate_x_rejected (shares : List Shamir.Share)
    (h : ¬ (shares.map Shamir.Share.x).Nodup) :
    Shamir.reconstructSecret shares =
      .error "Secret reconstruction failed: Duplicate share indices detected" := by
  have hlen2 : ¬ shares.length < 2 := by
    intro hlt
    apply h
    match shares, hlt with
    | [], _ => simp
    | [a], _ => simp
  have hdup : (shares.map Shamir.Share.x).dedup.length ≠ shares.length := by
    intro heq
    apply h
    have hsub := List.dedup_sublist (shares.map Shamir.Share.x)
    have heq2 : (shares.map Shamir.Share.x).dedup.length =
        (shares.map Shamir.Share.x).length := by
      rw [heq, List.length_map]
    have hed := hsub.eq_of_length heq2
    rw [← hed]
    exact List.nodup_dedup _
  unfold Shamir.reconstructSecret Shamir.validateShares
  rw [if_neg hlen2, if_pos hdup]
  rfl

/-- Witness for C8: two shares both at x = 1 are rejected. -/
theorem C8_duplicate_x_rejected_witness :
    Shamir.reconstructSecret [⟨1, 2⟩, ⟨1, 3⟩] =
      .error "Secret reconstruction failed: Duplicate share indices detected" :=
  C8_duplicate_x_rejected [⟨1, 2⟩, ⟨1, 3⟩] (by decide)

/-- C7: the claim states
`decryptShare(sk, encryptShare(pk(sk), share)) == share` for every valid
share and key pair.  The code violates this at every input:
`EccService.decrypt` shadows its `encryptedData` parameter with a
block-scoped `const` declared after the first reads of it, so every call
throws a temporal-dead-zone ReferenceError and `decryptShare` always
fails — in particular on every blob produced by `encryptShare`, so the
round trip never returns the share. -/
theorem C7_decryptShare_always_fails :
    ∀ (hash : Shamir.Share → Nat) (privateKeyBytes blob : List Nat),
      ShareCrypto.decryptShare hash privateKeyBytes blob =
        .error "Share decryption failed: ReferenceError: cannot access encryptedData before initialization" := by
  intro hash privateKeyBytes blob
  rfl

/-- C9: in the post-decryption stage of `decryptShare`, a payload whose
JSON carries no `metadata` field is returned as the share without any
checksum comparison: the result is `ok {x, y}` and is independent of the
checksum function, while a present metadata field with a mismatched
checksum is rejected — the secondary integrity layer is enforced only
when metadata is present. -/
theorem C9_no_metadata_skips_checksum
    (hash hash2 : Shamir.Share → Nat) (payload : ShareCrypto.EnrichedShare)
    (hnone : payload.metadata = none) :
    ShareCrypto.decryptShareStage hash payload = .ok ⟨payload.x, payload.y⟩ ∧
    ShareCrypto.decryptShareStage hash payload =
      ShareCrypto.decryptShareStage hash2 payload ∧
    (∀ md : ShareCrypto.ShareMetadata,
      hash ⟨payload.x, payload.y⟩ ≠ md.checksum →
        ShareCrypto.decryptShareStage hash { payload with metadata := some md } =
          .error "Share integrity verification failed: checksum mismatch") := by
  refine ⟨?_, ?_, ?_⟩
  · unfold ShareCrypto.decryptShareStage
    rw [hnone]
  · unfold ShareCrypto.decryptShareStage
    rw [hnone]
  · intro md hmd
    unfold ShareCrypto.decryptShareStage
    simp only [if_pos hmd]

/-- Witness for C9: a concrete metadata-free payload is returned intact
under two different checksum functions, and attaching a wrong checksum
makes the same payload fail. -/
theorem C9_no_metadata_skips_checksum_witness :
    ShareCrypto.decryptShareStage (fun _ => 0) ⟨2, 5, none⟩ = .ok ⟨2, 5⟩ ∧
    ShareCrypto.decryptShareStage (fun _ => 0) ⟨2, 5, none⟩ =
      ShareCrypto.decryptShareStage (fun _ => 1) ⟨2, 5, none⟩ ∧
    (∀ md : ShareCrypto.ShareMetadata,
      (fun _ : Shamir.Share => 0) (⟨2, 5⟩ : Shamir.Share) ≠ md.checksum →
        ShareCrypto.decryptShareStage (fun _ => 0) ⟨2, 5, some md⟩ =
          .error "Share integrity verification failed: checksum mismatch") :=
  C9_no_metadata_skips_checksum (fun _ => 0) (fun _ => 1) ⟨2, 5, none⟩ (by rfl)

theorem Registry.deactivateAll_spec (callerAddr : Registry.Address) :
    ∀ (ids : List Nat) (cs cs' : List Registry.Custodian),
      Registry.deactivateAll callerAddr cs ids = .ok cs' →
      cs'.length = cs.length ∧
      (∀ cid : Nat, cs'[cid]? = cs[cid]? ∨
        ∃ c, cs[cid]? = some c ∧ cs'[cid]? = some { c with isActive := false }) ∧
      (∀ cid ∈ ids, ∃ c, cs[cid]? = some c ∧
        cs'[cid]? = some { c with isActive := false }) := by
  intro ids
  induction ids with
  | nil =>
    intro cs cs' h
    unfold Registry.deactivateAll at h
    injection h with h
    subst h
    exact ⟨rfl, fun cid => Or.inl rfl, by intro cid hmem; cases hmem⟩
  | cons cid0 rest ih =>
    intro cs cs' h
    unfold Registry.deactivateAll at h
    split at h
    · cases h
    · rename_i c0 hc
      split at h
      case isFalse => cases h
      case isTrue hauth =>
        have hlen0 : cid0 < cs.length := (List.getElem?_eq_some.mp hc).1
        obtain ⟨hL, h1, h2⟩ := ih (cs.set cid0 { c0 with isActive := false }) cs' h
        have hLs : cs'.length = cs.length := by rw [hL, List.length_set]
        refine ⟨hLs, ?_, ?_⟩
        · intro cid
          rcases h1 cid with heq | ⟨c, hcs1, hcs'⟩
          · by_cases hcc : cid0 = cid
            · subst hcc
              right
              exact ⟨c0, hc, by rw [heq, List.getElem?_set_self hlen0]⟩
            · left
              rw [heq, List.getElem?_set_ne hcc]
          · by_cases hcc : cid0 = cid
            · subst hcc
              rw [List.getElem?_set_self hlen0] at hcs1
              injection hcs1 with hcv
              right
              exact ⟨c0, hc, by rw [hcs', ← hcv]⟩
            · rw [List.getElem?_set_ne hcc] at hcs1
              right
              exact ⟨c, hcs1, hcs'⟩
        · intro cid hmem
          rcases List.mem_cons.mp hmem with hcid | hcid
          · subst hcid
            rcases h1 cid with heq | ⟨c, hcs1, hcs'⟩
            · exact ⟨c0, hc, by rw [heq, List.getElem?_set_self hlen0]⟩
            · rw [List.getElem?_set_self hlen0] at hcs1
              injection hcs1 with hcv
              exact ⟨c0, hc, by rw [hcs', ← hcv]⟩
          · obtain ⟨c, hcs1, hcs'⟩ := h2 cid hcid
            by_cases hcc : cid0 = cid
            · subst hcc
              rw [List.getElem?_set_self hlen0] at hcs1
              injection hcs1 with hcv
              exact ⟨c0, hc, by rw [hcs', ← hcv]⟩
            · rw [List.getElem?_set_ne hcc] at hcs1
              exact ⟨c, hcs1, hcs'⟩

theorem Registry.custodianGetShare_inactive (s : Registry.State) (cid : Nat)
    (caller now : Nat) (c : Registry.Custodian)
    (hc : s.custodians[cid]? = some c) (hia : c.isActive = false) :
    Registry.custodianGetShare s cid caller now = .error "Share is inactive" := by
  unfold Registry.custodianGetShare
  rw [hc]
  simp [hia]

theorem Registry.throttleFinal_ok {s : Registry.State} {a : Registry.Address}
    {now : Nat} {s' : Registry.State}
    (h : Registry.throttleFinal s a now = .ok s') : s' = s := by
  unfold Registry.throttleFinal at h
  split at h
  · injection h with h; exact h.symm
  · cases h

theorem Registry.throttleCheck_ok {s : Registry.State} {a : Registry.Address}
    {now : Nat} {s' : Registry.State}
    (h : Registry.throttleCheck s a now = .ok s') :
    s' = s ∨ s' = { s with failedAttempts := Registry.upd s.failedAttempts a 0 } := by
  unfold Registry.throttleCheck at h
  split at h
  · split at h
    · right
      rw [Registry.throttleFinal_ok h]
    · cases h
  · left
    exact Registry.throttleFinal_ok h

/-- Every field of the registry state other than `failedAttempts` is
unchanged by a successful `_throttleRequests`. -/
theorem Registry.throttle_frame {s : Registry.State} {a : Registry.Address}
    {now : Nat} {s' : Registry.State}
    (h : Registry.throttleRequests s a now = .ok s') :
    s'.selfAddr = s.selfAddr ∧ s'.contractOwner = s.contractOwner ∧
    s'.paused = s.paused ∧ s'.serviceFee = s.serviceFee ∧
    s'.feeCollector = s.feeCollector ∧ s'.custodians = s.custodians ∧
    s'.shareConfigs = s.shareConfigs ∧ s'.userShares = s.userShares ∧
    s'.recoveryAddresses = s.recoveryAddresses ∧
    s'.emergencyContacts = s.emergencyContacts ∧
    s'.recoveryRequests = s.recoveryRequests ∧
    s'.blacklisted = s.blacklisted ∧ s'.feeExemptions = s.feeExemptions ∧
    s'.lastActionTimestamp = s.lastActionTimestamp := by
  unfold Registry.throttleRequests at h
  split at h
  · injection h with h
    subst h
    exact ⟨rfl, rfl, rfl, rfl, rfl, rfl, rfl, rfl, rfl, rfl, rfl, rfl, rfl, rfl⟩
  · split at h <;>
      rcases Registry.throttleCheck_ok h with h2 | h2 <;> subst h2 <;>
        exact ⟨rfl, rfl, rfl, rfl, rfl, rfl, rfl, rfl, rfl, rfl, rfl, rfl, rfl, rfl⟩

/-- C2 counterexample: the claim asserts that a recovery initiator is
never authorized before the 48-hour lock elapses.  But `initiateRecovery`
only accepts initiators who are the emergency contact or a recovery
address — roles that `isAuthorizedForShare` authorizes outright.  In the
reachable scenario below, user 1 stores shares, makes 2 the emergency
contact, 2 initiates recovery at time 1800 (lock expires 174600), and at
time 1801 — with the lock far from elapsed — `isAuthorizedForShare`
already returns true for the initiator 2. -/
theorem C2_initiator_authorized_before_lock :
    (Registry.storeShares Registry.s0 1 1000 0 [[7], [7], [7]] 2).isOk = true ∧
    (Registry.setEmergencyContact Registry.st1 1 2 1400).isOk = true ∧
    (Registry.initiateRecovery Registry.st2 2 1 1800).isOk = true ∧
    (Registry.st3.recoveryRequests 1).isActive = true ∧
    (Registry.st3.recoveryRequests 1).initiator = 2 ∧
    1801 < (Registry.st3.recoveryRequests 1).expiresAt ∧
    Registry.isAuthorizedForShare Registry.st3 1 2 1801 = true := by
  exact ⟨rfl, rfl, rfl, rfl, rfl, by decide, rfl⟩

/-- C2 amended: `isAuthorizedForShare(owner, accessor)` is true exactly
when the accessor is the owner, a registered recovery address, the
stored emergency contact, or the initiator of an active recovery request
whose lock has expired; consequently an initiator who holds none of the
standing roles is authorized precisely once the 48-hour lock has
elapsed, while an initiator who still is the emergency contact or a
recovery address (as every initiator is at initiation time) is
authorized immediately, lock or no lock. -/
theorem C2_isAuthorizedForShare_characterization (s : Registry.State)
    (o a : Registry.Address) (now : Nat) :
    (Registry.isAuthorizedForShare s o a now = true ↔
      (o = a ∨ a ∈ s.recoveryAddresses o ∨ s.emergencyContacts o = a ∨
        ((s.recoveryRequests o).isActive = true ∧
         (s.recoveryRequests o).initiator = a ∧
         (s.recoveryRequests o).expiresAt ≤ now))) ∧
    (o ≠ a → a ∉ s.recoveryAddresses o → s.emergencyContacts o ≠ a →
      (s.recoveryRequests o).isActive = true →
      (s.recoveryRequests o).initiator = a →
        (Registry.isAuthorizedForShare s o a now = true ↔
          (s.recoveryRequests o).expiresAt ≤ now)) := by
  have hmain : Registry.isAuthorizedForShare s o a now = true ↔
      (o = a ∨ a ∈ s.recoveryAddresses o ∨ s.emergencyContacts o = a ∨
        ((s.recoveryRequests o).isActive = true ∧
         (s.recoveryRequests o).initiator = a ∧
         (s.recoveryRequests o).expiresAt ≤ now)) := by
    unfold Registry.isAuthorizedForShare Registry.isRecoveryAddress
    split_ifs with h1 h2 h3
    · simp only [beq_iff_eq] at h1
      simp [h1]
    · rw [List.elem_iff] at h2
      simp [h2]
    · simp only [beq_iff_eq] at h3
      simp [h3]
    · simp only [beq_iff_eq] at h1 h3
      rw [List.elem_iff] at h2
      simp only [Bool.and_eq_true, beq_iff_eq, decide_eq_true_eq]
      constructor
      · rintro ⟨⟨hact, hini⟩, hexp⟩
        exact Or.inr (Or.inr (Or.inr ⟨hact, hini, hexp⟩))
      · rintro (h | h | h | ⟨hact, hini, hexp⟩)
        · exact absurd h h1
        · exact absurd h h2
        · exact absurd h h3
        · exact ⟨⟨hact, hini⟩, hexp⟩
  refine ⟨hmain, ?_⟩
  intro hno hnr hne hact hini
  rw [hmain]
  constructor
  · rintro (h | h | h | ⟨_, _, hexp⟩)
    · exact absurd h hno
    · exact absurd h hnr
    · exact absurd h hne
    · exact hexp
  · intro hexp
    exact Or.inr (Or.inr (Or.inr ⟨hact, hini, hexp⟩))

/-- Witness for C2 (amended): in a state whose only relevant fact is an
active request by initiator 3 expiring at 172800, the initiator is
authorized exactly when the lock has elapsed — and concretely is
unauthorized one second early and authorized at expiry. -/
theorem C2_isAuthorizedForShare_characterization_witness :
    (Registry.isAuthorizedForShare Registry.c2w 1 3 172800 = true ↔
      (Registry.c2w.recoveryRequests 1).expiresAt ≤ 172800) ∧
    (Registry.isAuthorizedForShare Registry.c2w 1 3 172799 = true ↔
      (Registry.c2w.recoveryRequests 1).expiresAt ≤ 172799) :=
  ⟨(C2_isAuthorizedForShare_characterization Registry.c2w 1 3 172800).2
      (by decide) (by decide) (by decide) (by rfl) (by rfl),
   (C2_isAuthorizedForShare_characterization Registry.c2w 1 3 172799).2
      (by decide) (by decide) (by decide) (by rfl) (by rfl)⟩

/-- C3: the claim says `getShare(owner, index)` fails for
`index >= totalShares` and otherwise returns the payload of the current
configuration's custodian for that position.  The code fails to deliver
the payload on both counts.  First, the registry itself performs the
external call to the custodian, so inside `SecureShareContract.getShare`
the message sender is the registry's address, which is neither the owner
nor authorized by `isAuthorizedForShare`; even the owner's own
`getShare(owner, 0)` therefore reverts with
`Not authorized for this share` (first conjunct, state `st1` right after
storing).  Second, `userShares` is never pruned on revocation, so after
revoke + fresh store the configuration reports 3 shares while
`userShares` holds six custodians and index 0 addresses the revoked
generation's (deactivated) custodian: the call reverts with
`Share is inactive` instead of returning the fresh payload (remaining
conjuncts, states `rv2`/`st4`).  The bounds check itself behaves as
claimed (last conjunct). -/
theorem C3_registry_getShare_never_returns_payload :
    Registry.registryGetShare Registry.st1 1 0 1 1200 =
      .error "Not authorized for this share" ∧
    (Registry.revokeShares Registry.st1 1 1400).isOk = true ∧
    (Registry.storeShares Registry.rv2 1 1800 0 [[9], [9], [9]] 2).isOk = true ∧
    Registry.st4.userShares 1 = [0, 1, 2, 3, 4, 5] ∧
    (Registry.st4.shareConfigs 1).totalShares = 3 ∧
    Registry.registryGetShare Registry.st4 1 0 1 2100 =
      .error "Share is inactive" ∧
    Registry.registryGetShare Registry.st4 1 3 1 2100 =
      .error "Invalid share index" :=
  ⟨rfl, rfl, rfl, rfl, rfl, rfl, rfl⟩

/-- C5 counterexample: the claim says every call with threshold below 2
fails, but `storeShares` only requires `threshold > 0`: a store with
threshold 1 and three shares is accepted, creates three custodians and
records an active configuration with threshold 1. -/
theorem C5_threshold_one_accepted :
    (Registry.storeShares Registry.s0 1 1000 0 [[7], [7], [7]] 1).isOk = true ∧
    (Registry.c5st.shareConfigs 1).threshold = 1 ∧
    (Registry.c5st.shareConfigs 1).isActive = true ∧
    Registry.c5st.custodians.length = 3 :=
  ⟨rfl, rfl, rfl, rfl⟩

/-- C5 amended: `storeShares` rejects every call whose share count lies
outside [3,100] or whose threshold lies outside [1,count]; in particular
a call with threshold 0 fails, and rejection means the transaction
reverts, so no custodian and no configuration is created.  (Threshold 1,
contrary to the claim, is accepted — see the counterexample.) -/
theorem C5_storeShares_range_rejection (s : Registry.State)
    (sender : Registry.Address) (now value : Nat)
    (dataList : List (List Nat)) (threshold : Nat)
    (h : dataList.length < 3 ∨ 100 < dataList.length ∨ threshold = 0 ∨
      dataList.length < threshold) :
    (Registry.storeShares s sender now value dataList threshold).isOk = false := by
  unfold Registry.storeShares
  split
  · rfl
  · split
    · rfl
    · split
      · rfl
      · split <;> [rfl; skip]
        split <;> [rfl; skip]
        split <;> [rfl; skip]
        split <;> [rfl; skip]
        rename_i hthr h3 h100
        exfalso
        have hthr2 : ¬ threshold = 0 ∧ threshold ≤ dataList.length := by
          simpa using hthr
        omega

/-- Witness for C5 (amended): a store with threshold 0 is rejected. -/
theorem C5_storeShares_range_rejection_witness :
    (Registry.storeShares Registry.s0 1 1000 0 [[7], [7], [7]] 0).isOk = false :=
  C5_storeShares_range_rejection Registry.s0 1 1000 0 [[7], [7], [7]] 0
    (by decide)

set_option maxHeartbeats 1000000 in
/-- C6: after a successful `revokeShares` by owner `o`, every custodian
listed for `o` (in particular every custodian of the revoked
configuration) answers `getShare` with `Share is inactive` for every
caller, the owner included; and a subsequent `storeShares` by the same
owner is accepted whenever its standard preconditions hold (not paused,
not blacklisted, fee covered or exempt, 3-100 nonempty shares, threshold
in range, and the 5-minute throttle window since the revocation has
passed). -/
theorem C6_revoke_deactivates_then_fresh_store_accepted
    (s : Registry.State) (o : Registry.Address) (now : Nat) (s2 : Registry.State)
    (hrev : Registry.revokeShares s o now = .ok s2) :
    (∀ cid ∈ s2.userShares o, ∀ caller now2,
       Registry.custodianGetShare s2 cid caller now2 = .error "Share is inactive") ∧
    (∀ now3 value dataList threshold,
       s2.paused = false → s2.blacklisted o = false → o ≠ 0 → s2.selfAddr ≠ 0 →
       (s2.feeExemptions o = true ∨ s2.serviceFee ≤ value) →
       3 ≤ dataList.length → dataList.length ≤ 100 →
       1 ≤ threshold → threshold ≤ dataList.length →
       (∀ d ∈ dataList, d ≠ []) →
       (Registry.throttleRequests s2 o now3).isOk = true →
       (Registry.storeShares s2 o now3 value dataList threshold).isOk = true) := by
  unfold Registry.revokeShares at hrev
  split at hrev
  · cases hrev
  · split at hrev
    · cases hrev
    · rename_i cs hda
      injection hrev with hrec
      have hu2 : s2.userShares = s.userShares := by rw [← hrec]
      have hc2 : s2.custodians = cs := by rw [← hrec]
      have hcfg : (s2.shareConfigs o).isActive = false := by
        rw [← hrec]
        simp [Registry.upd]
      constructor
      · intro cid hmem caller now2
        rw [hu2] at hmem
        obtain ⟨hL, hAll, hIds⟩ :=
          Registry.deactivateAll_spec s.selfAddr (s.userShares o) s.custodians cs hda
        obtain ⟨c, hcs, hcs'⟩ := hIds cid hmem
        refine Registry.custodianGetShare_inactive s2 cid caller now2
          { c with isActive := false } ?_ rfl
        rw [hc2]
        exact hcs'
      · intro now3 value dataList threshold hpz hbl ho hsne hfee h3 h100 h1t htl
          hdata hthok
        cases hthv : Registry.throttleRequests s2 o now3 with
        | error e => rw [hthv] at hthok; simp [Except.isOk, Except.toBool] at hthok
        | ok s3 =>
          obtain ⟨fself, fown, fpaused, ffee, fcoll, fcust, fconf, fush, frca,
            femc, frr, fbl, ffex, flat⟩ := Registry.throttle_frame hthv
          have hcb : Registry.checkBlacklist s2 o = .ok () := by
            unfold Registry.checkBlacklist
            rw [hbl]
            rfl
          unfold Registry.storeShares
          split
          · rename_i hpp
            rw [hpz] at hpp
            cases hpp
          · split
            · rename_i e hcbe
              rw [hcb] at hcbe
              cases hcbe
            · rename_i u hcbo
              split
              · rename_i e hte
                rw [hthv] at hte
                cases hte
              · rename_i s3x hte
                rw [hthv] at hte
                injection hte with hte
                subst hte
                have e1 : ¬ ((!s3.feeExemptions o &&
                    decide (value < s3.serviceFee)) = true) := by
                  intro hcond
                  rw [ffex, ffee] at hcond
                  rcases hfee with hf | hf
                  · rw [hf] at hcond
                    simp at hcond
                  · simp only [Bool.and_eq_true, decide_eq_true_eq] at hcond
                    omega
                have e2 : ¬ ((!(decide (0 < threshold) &&
                    decide (threshold ≤ dataList.length))) = true) := by
                  intro hcond
                  have h20 : threshold = 0 ∨ dataList.length < threshold := by
                    simpa using hcond
                  omega
                have e3 : ¬ (dataList.length < 3) := by omega
                have e4 : ¬ (100 < dataList.length) := by omega
                have e5 : ¬ (Registry.hasShares s3 o = true) := by
                  intro hcond
                  unfold Registry.hasShares at hcond
                  rw [fconf, hcfg] at hcond
                  simp at hcond
                have e6 : ¬ (dataList.any List.isEmpty = true) := by
                  intro hcond
                  rw [List.any_eq_true] at hcond
                  obtain ⟨d, hd, hde⟩ := hcond
                  rw [List.isEmpty_iff] at hde
                  exact hdata d hd hde
                have e8 : ¬ (s3.selfAddr = 0) := by
                  rw [fself]
                  exact hsne
                simp only [if_neg e1, if_neg e2, if_neg e3, if_neg e4, if_neg e5,
                  if_neg e6, if_neg ho, if_neg e8]
                rfl

/-- Witness for C6: in the concrete scenario, user 1 stores three shares
at time 1000 and revokes at time 1400; custodian 0 then refuses even the
owner at any later time, and a fresh store of three shares at time 1800
is accepted. -/
theorem C6_revoke_deactivates_then_fresh_store_accepted_witness :
    Registry.custodianGetShare Registry.rv2 0 1 9999 =
      .error "Share is inactive" ∧
    (Registry.storeShares Registry.rv2 1 1800 0 [[9], [9], [9]] 2).isOk = true := by
  have h := C6_revoke_deactivates_then_fresh_store_accepted Registry.st1 1 1400
    Registry.rv2 (by rfl)
  refine ⟨h.1 0 (by decide) 1 9999, ?_⟩
  refine h.2 1800 0 [[9], [9], [9]] 2 rfl rfl (by decide) (by decide)
    (Or.inr (by decide)) (by decide) (by decide) (by decide) (by decide)
    (by decide) (by rfl)

/-- C10: a successful `revokeShares` changes nothing except the
custodians' `isActive` flags (each custodian listed for the caller
becomes its deactivated copy, all others are untouched), the caller's
configuration's `isActive` flag, and the caller's last-action timestamp;
in particular the recovery-address set, the emergency contact and the
recovery request of every user — the caller included — are unchanged and
therefore carry over to any later configuration. -/
theorem C10_revokeShares_frame
    (s : Registry.State) (o : Registry.Address) (now : Nat) (s2 : Registry.State)
    (hrev : Registry.revokeShares s o now = .ok s2) :
    (s2.recoveryAddresses = s.recoveryAddresses ∧
     s2.emergencyContacts = s.emergencyContacts ∧
     s2.recoveryRequests = s.recoveryRequests) ∧
    (s2.selfAddr = s.selfAddr ∧ s2.contractOwner = s.contractOwner ∧
     s2.paused = s.paused ∧ s2.serviceFee = s.serviceFee ∧
     s2.feeCollector = s.feeCollector ∧ s2.userShares = s.userShares ∧
     s2.blacklisted = s.blacklisted ∧ s2.feeExemptions = s.feeExemptions ∧
     s2.failedAttempts = s.failedAttempts) ∧
    (s2.shareConfigs o = { s.shareConfigs o with isActive := false } ∧
     (∀ u, u ≠ o → s2.shareConfigs u = s.shareConfigs u) ∧
     s2.lastActionTimestamp o = now ∧
     (∀ u, u ≠ o → s2.lastActionTimestamp u = s.lastActionTimestamp u)) ∧
    (s2.custodians.length = s.custodians.length ∧
     (∀ cid : Nat, s2.custodians[cid]? = s.custodians[cid]? ∨
       ∃ c, s.custodians[cid]? = some c ∧
         s2.custodians[cid]? = some { c with isActive := false }) ∧
     (∀ cid ∈ s.userShares o, ∃ c, s.custodians[cid]? = some c ∧
       s2.custodians[cid]? = some { c with isActive := false })) := by
  unfold Registry.revokeShares at hrev
  split at hrev
  · cases hrev
  · split at hrev
    · cases hrev
    · rename_i cs hda
      injection hrev with hrec
      obtain ⟨hL, hAll, hIds⟩ :=
        Registry.deactivateAll_spec s.selfAddr (s.userShares o) s.custodians cs hda
      subst hrec
      refine ⟨⟨rfl, rfl, rfl⟩, ⟨rfl, rfl, rfl, rfl, rfl, rfl, rfl, rfl, rfl⟩,
        ⟨?_, ?_, ?_, ?_⟩, ⟨hL, hAll, hIds⟩⟩
      · simp [Registry.upd]
      · intro u hu
        simp [Registry.upd, hu]
      · simp [Registry.upd]
      · intro u hu
        simp [Registry.upd, hu]

/-- Witness for C10: in the concrete store-then-revoke scenario the
recovery-address map, emergency-contact map and recovery-request map are
untouched by the revocation. -/
theorem C10_revokeShares_frame_witness :
    Registry.rv2.recoveryAddresses = Registry.st1.recoveryAddresses ∧
    Registry.rv2.emergencyContacts = Registry.st1.emergencyContacts ∧
    Registry.rv2.recoveryRequests = Registry.st1.recoveryRequests :=
  (C10_revokeShares_frame Registry.st1 1 1400 Registry.rv2 (by rfl)).1
